import Mathlib

/-!
Verification of the BIFFes schedule pipeline scripts
(src/scripts/extract-feb-schedule.py, src/scripts/parse-schedule-pdf.py,
src/scripts/merge-schedule.py) against their natural-language specification.

The Python functions are shallowly embedded as executable Lean functions over
`List Char` / `String`. Python `dict`s are modelled as association lists in
insertion order (Python dicts iterate in insertion order; assigning to an
existing key overwrites the value in place).
-/

namespace Biffes

/-! ## Title Normalizer

Embedding of `normalize_title` (extract-feb-schedule.py, lines 22-27):

    title = title.upper().strip()
    title = re.sub(r'\s+', ' ', title)
    title = re.sub(r'[^\w\s]', '', title)

restricted to the ASCII fragment (all repository data is ASCII): `\s` is the
six ASCII whitespace characters, `\w` is alphanumeric or underscore, and
`str.upper` is `Char.toUpper` character-wise. -/

/-- ASCII model of the Python regex class `\s` (also used for `str.strip`). -/
def isSpaceB (c : Char) : Bool :=
  c == ' ' || c == '\t' || c == '\n' || c == '\r' || c == '\x0b' || c == '\x0c'

/-- ASCII model of the Python regex class `\w`: alphanumeric or underscore. -/
def isWordB (c : Char) : Bool :=
  c.isAlphanum || c == '_'

/-- Python `str.strip()`: drop leading and trailing whitespace. -/
def stripChars (l : List Char) : List Char :=
  ((l.dropWhile isSpaceB).reverse.dropWhile isSpaceB).reverse

/-- State machine for `re.sub(r'\s+', ' ', s)`: the flag records whether the
previous character was part of a whitespace run already replaced by a space. -/
def collapseAux : Bool → List Char → List Char
  | _, [] => []
  | b, c :: rest =>
    if isSpaceB c then
      if b then collapseAux true rest else ' ' :: collapseAux true rest
    else
      c :: collapseAux false rest

/-- Python `re.sub(r'\s+', ' ', s)`: each maximal whitespace run becomes one space. -/
def collapseWS (l : List Char) : List Char := collapseAux false l

/-- Characters kept by `re.sub(r'[^\w\s]', '', s)`. -/
def keepB (c : Char) : Bool := isWordB c || isSpaceB c

/-- Python `re.sub(r'[^\w\s]', '', s)`: delete non-word, non-space characters. -/
def removeOther (l : List Char) : List Char := l.filter keepB

/-- The three-step body of `normalize_title` on character lists, in source
order: upper-case, strip, collapse whitespace, then delete punctuation. -/
def normalizeList (l : List Char) : List Char :=
  removeOther (collapseWS (stripChars (l.map Char.toUpper)))

/-- Embedding of `normalize_title` (extract-feb-schedule.py, lines 22-27). -/
def normalize_title (s : String) : String :=
  String.mk (normalizeList s.data)

/-! ## Catalog Matcher

Embedding of `find_film_match` (extract-feb-schedule.py, lines 29-44). The
films database is the association list produced by `load_films`; Python dict
iteration visits entries in key-insertion order. -/

/-- A catalog entry. The source treats films as opaque dicts with at least a
`title` field; the other fields ride along opaquely, represented here by the
`director` field. -/
structure CatalogFilm where
  title : String
  director : String
deriving DecidableEq

/-- Is `a` an infix (contiguous sublist) of `b`? Boolean model of Python's
substring test `a in b`. -/
def isInfixB (a : List Char) : List Char → Bool
  | [] => a.isEmpty
  | c :: rest => a.isPrefixOf (c :: rest) || isInfixB a rest

/-- Python `a in b` on strings: substring containment. -/
def strIn (a b : String) : Bool := isInfixB a.data b.data

/-- Embedding of `find_film_match(title, films_db)`: first a pass looking for
an exact normalized-title match, then a pass looking for substring containment
either way, else no match (extract-feb-schedule.py, lines 29-44). -/
def find_film_match (title : String) (films_db : List (String × CatalogFilm)) :
    Option CatalogFilm :=
  let normalized := normalize_title title
  match films_db.find? (fun p => normalize_title p.1 == normalized) with
  | some p => some p.2
  | none =>
    match films_db.find?
        (fun p => strIn normalized (normalize_title p.1)
               || strIn (normalize_title p.1) normalized) with
    | some p => some p.2
    | none => none

/-! ## Claim C1: exact match strictly precedes partial match -/

/-- Claim C1 (confirmed). If some catalog entry matches the input title
exactly under normalization, then `find_film_match` returns the film of an
exactly-matching entry: the partial (substring) pass is never consulted, so a
distinct entry related to the input only by substring containment is never
returned. -/
theorem find_film_match_exact_precedence
    (t k : String) (f : CatalogFilm) (db : List (String × CatalogFilm))
    (hmem : (k, f) ∈ db) (hexact : normalize_title k = normalize_title t) :
    ∃ p : String × CatalogFilm,
      p ∈ db ∧ normalize_title p.1 = normalize_title t ∧
      find_film_match t db = some p.2 := by
  have hsome : (db.find? (fun p => normalize_title p.1 == normalize_title t)).isSome := by
    rw [List.find?_isSome]
    exact ⟨(k, f), hmem, by simp [hexact]⟩
  rcases Option.isSome_iff_exists.mp hsome with ⟨p, hp⟩
  refine ⟨p, List.mem_of_find?_eq_some hp, ?_, ?_⟩
  · have := List.find?_some hp
    simpa using this
  · unfold find_film_match
    simp only [hp]

/-- Witness for C1 at a concrete input: the catalog holds an exact match for
the title "Man Of Marble" and also a distinct entry ("MAN OF MARBLE RESTORED")
related to it only by substring containment; the matcher returns a film from
an exactly-matching entry. -/
theorem find_film_match_exact_precedence_witness :
    (("MAN OF MARBLE", CatalogFilm.mk ("MAN OF MARBLE") ("Andrzej Wajda")) ∈
      [("MAN OF MARBLE", CatalogFilm.mk ("MAN OF MARBLE") ("Andrzej Wajda")),
       ("MAN OF MARBLE RESTORED", CatalogFilm.mk ("MAN OF MARBLE RESTORED") ("Restorer"))]) ∧
    normalize_title ("MAN OF MARBLE") = normalize_title ("Man Of Marble") ∧
    (∃ p : String × CatalogFilm,
      p ∈ [("MAN OF MARBLE", CatalogFilm.mk ("MAN OF MARBLE") ("Andrzej Wajda")),
           ("MAN OF MARBLE RESTORED", CatalogFilm.mk ("MAN OF MARBLE RESTORED") ("Restorer"))] ∧
      normalize_title p.1 = normalize_title ("Man Of Marble") ∧
      find_film_match ("Man Of Marble")
        [("MAN OF MARBLE", CatalogFilm.mk ("MAN OF MARBLE") ("Andrzej Wajda")),
         ("MAN OF MARBLE RESTORED", CatalogFilm.mk ("MAN OF MARBLE RESTORED") ("Restorer"))] = some p.2) :=
  ⟨by decide, by decide,
   find_film_match_exact_precedence ("Man Of Marble") ("MAN OF MARBLE")
     (CatalogFilm.mk ("MAN OF MARBLE") ("Andrzej Wajda")) _ (by decide) (by decide)⟩

/-! ## Claim C2: idempotence of the normalizer

Helper lemmas describing the normalizer pipeline. The key fact is that
punctuation removal happens after whitespace collapsing, so deleting a
punctuation character that sits between two spaces leaves a double space:
a single application of `normalize_title` is not idempotent, but its image
after two applications is a fixed point. -/

/-- Characters of Latin letters mapped by `Char.toUpper` stay fixed under a
second `Char.toUpper`. -/
theorem char_toUpper_toNat_in (m : Nat) (h1 : 65 ≤ m) (h2 : m ≤ 90) :
    (Char.ofNat m).toNat = m := by
  interval_cases m <;> decide

/-- Char.toUpper is idempotent. -/
theorem toUpper_idem (c : Char) : c.toUpper.toUpper = c.toUpper := by
  unfold Char.toUpper
  by_cases h : c.toNat ≥ 97 ∧ c.toNat ≤ 122
  · rw [if_pos h]
    have ht : (Char.ofNat (c.toNat - 32)).toNat = c.toNat - 32 :=
      char_toUpper_toNat_in _ (by omega) (by omega)
    rw [if_neg]
    rw [ht]
    omega
  · rw [if_neg h, if_neg h]

/-- A list has no leading whitespace character. -/
def noLead (l : List Char) : Prop :=
  ∀ c, l.head? = some c → isSpaceB c = false

/-- A list has no trailing whitespace character. -/
def noTrail (l : List Char) : Prop :=
  ∀ c, l.getLast? = some c → isSpaceB c = false

theorem collapseAux_cons_space_true (c : Char) (rest : List Char)
    (h : isSpaceB c = true) :
    collapseAux true (c :: rest) = collapseAux true rest := by
  simp only [collapseAux]
  simp [h]

theorem collapseAux_cons_space_false (c : Char) (rest : List Char)
    (h : isSpaceB c = true) :
    collapseAux false (c :: rest) = ' ' :: collapseAux true rest := by
  simp only [collapseAux]
  simp [h]

theorem collapseAux_cons_nonspace (b : Bool) (c : Char) (rest : List Char)
    (h : isSpaceB c = false) :
    collapseAux b (c :: rest) = c :: collapseAux false rest := by
  simp only [collapseAux]
  simp [h]

theorem noLead_dropWhile (l : List Char) : noLead (l.dropWhile isSpaceB) := by
  induction l with
  | nil => intro c h; simp at h
  | cons a t ih =>
    intro c h
    rw [List.dropWhile_cons] at h
    by_cases ha : isSpaceB a = true
    · rw [if_pos ha] at h
      exact ih c h
    · rw [if_neg ha] at h
      simp at h
      subst h
      simpa using ha

theorem dropWhile_eq_self_of_noLead (l : List Char) (h : noLead l) :
    l.dropWhile isSpaceB = l := by
  cases l with
  | nil => rfl
  | cons a t =>
    rw [List.dropWhile_cons, if_neg]
    simp [h a rfl]

theorem mem_stripChars (l : List Char) (c : Char) (h : c ∈ stripChars l) : c ∈ l := by
  unfold stripChars at h
  rw [List.mem_reverse] at h
  have h2 := (List.dropWhile_suffix isSpaceB).subset h
  rw [List.mem_reverse] at h2
  exact (List.dropWhile_suffix isSpaceB).subset h2

theorem noLead_stripChars (l : List Char) : noLead (stripChars l) := by
  intro c h
  unfold stripChars at h
  have hpre : ((l.dropWhile isSpaceB).reverse.dropWhile isSpaceB).reverse
      <+: l.dropWhile isSpaceB := by
    have := List.reverse_prefix.mpr (List.dropWhile_suffix (l := (l.dropWhile isSpaceB).reverse)
      isSpaceB)
    simpa using this
  rcases hpre with ⟨t, ht⟩
  have : (l.dropWhile isSpaceB).head? = some c := by
    rw [← ht, List.head?_append, h]
    rfl
  exact noLead_dropWhile l c this

theorem noTrail_stripChars (l : List Char) : noTrail (stripChars l) := by
  intro c h
  unfold stripChars at h
  rw [List.getLast?_reverse] at h
  exact noLead_dropWhile (l.dropWhile isSpaceB).reverse c h

theorem stripChars_eq_self (l : List Char) (h1 : noLead l) (h2 : noTrail l) :
    stripChars l = l := by
  unfold stripChars
  rw [dropWhile_eq_self_of_noLead l h1]
  rw [dropWhile_eq_self_of_noLead l.reverse]
  · exact l.reverse_reverse
  · intro c hc
    rw [List.head?_reverse] at hc
    exact h2 c hc

theorem mem_collapseAux (l : List Char) :
    ∀ b c, c ∈ collapseAux b l → (c ∈ l ∧ isSpaceB c = false) ∨ c = ' ' := by
  induction l with
  | nil => intro b c h; simp [collapseAux] at h
  | cons a t ih =>
    intro b c h
    unfold collapseAux at h
    by_cases ha : isSpaceB a = true
    · rw [if_pos ha] at h
      by_cases hb : b = true
      · rw [if_pos hb] at h
        rcases ih true c h with ⟨hm, hs⟩ | hsp
        · exact Or.inl ⟨List.mem_cons_of_mem a hm, hs⟩
        · exact Or.inr hsp
      · rw [if_neg hb] at h
        rcases List.mem_cons.mp h with hc | hc
        · exact Or.inr hc
        · rcases ih true c hc with ⟨hm, hs⟩ | hsp
          · exact Or.inl ⟨List.mem_cons_of_mem a hm, hs⟩
          · exact Or.inr hsp
    · rw [if_neg ha] at h
      rcases List.mem_cons.mp h with hc | hc
      · subst hc
        exact Or.inl ⟨List.mem_cons_self c t, by simpa using ha⟩
      · rcases ih false c hc with ⟨hm, hs⟩ | hsp
        · exact Or.inl ⟨List.mem_cons_of_mem a hm, hs⟩
        · exact Or.inr hsp

theorem collapseAux_idem (l : List Char) :
    ∀ b, collapseAux b (collapseAux b l) = collapseAux b l := by
  induction l with
  | nil => intro b; rfl
  | cons a t ih =>
    intro b
    by_cases ha : isSpaceB a = true
    · cases b with
      | true =>
        rw [collapseAux_cons_space_true a t ha]
        exact ih true
      | false =>
        rw [collapseAux_cons_space_false a t ha]
        rw [collapseAux_cons_space_false ' ' _ (by decide)]
        rw [ih true]
    · have ha' : isSpaceB a = false := by simpa using ha
      rw [collapseAux_cons_nonspace b a t ha']
      rw [collapseAux_cons_nonspace b a _ ha']
      rw [ih false]

theorem noLead_collapseWS (l : List Char) (h : noLead l) : noLead (collapseWS l) := by
  cases l with
  | nil => intro c hc; simp [collapseWS, collapseAux] at hc
  | cons a t =>
    intro c hc
    have ha : isSpaceB a = false := h a rfl
    unfold collapseWS at hc
    rw [collapseAux_cons_nonspace false a t ha] at hc
    simp at hc
    subst hc
    exact ha

theorem getLast?_cons_ne (x : Char) (u : List Char) (h : u ≠ []) :
    (x :: u).getLast? = u.getLast? := by
  cases u with
  | nil => exact absurd rfl h
  | cons y ys => exact List.getLast?_cons_cons

theorem getLast?_collapseAux (l : List Char) :
    ∀ b, noTrail l → (collapseAux b l).getLast? = l.getLast? := by
  induction l with
  | nil => intro b _; rfl
  | cons a t ih =>
    intro b h
    cases t with
    | nil =>
      have ha : isSpaceB a = false := h a (by simp)
      rw [collapseAux_cons_nonspace b a [] ha]
      rfl
    | cons a' t' =>
      have htail : noTrail (a' :: t') := by
        intro c hc
        apply h c
        rw [List.getLast?_cons_cons]
        exact hc
      have hne : collapseAux true (a' :: t') ≠ [] := by
        intro hnil
        have h2 := ih true htail
        rw [hnil] at h2
        have h3 : (a' :: t').getLast? = none := by rw [← h2]; rfl
        rw [List.getLast?_eq_none_iff] at h3
        exact List.cons_ne_nil a' t' h3
      have hne' : collapseAux false (a' :: t') ≠ [] := by
        intro hnil
        have h2 := ih false htail
        rw [hnil] at h2
        have h3 : (a' :: t').getLast? = none := by rw [← h2]; rfl
        rw [List.getLast?_eq_none_iff] at h3
        exact List.cons_ne_nil a' t' h3
      by_cases ha : isSpaceB a = true
      · cases b with
        | true =>
          rw [collapseAux_cons_space_true a _ ha]
          rw [ih true htail]
          exact (List.getLast?_cons_cons).symm
        | false =>
          rw [collapseAux_cons_space_false a _ ha]
          rw [getLast?_cons_ne _ _ hne, ih true htail]
          exact (List.getLast?_cons_cons).symm
      · have ha' : isSpaceB a = false := by simpa using ha
        rw [collapseAux_cons_nonspace b a _ ha']
        rw [getLast?_cons_ne _ _ hne', ih false htail]
        exact (List.getLast?_cons_cons).symm

theorem noTrail_collapseWS (l : List Char) (h : noTrail l) : noTrail (collapseWS l) := by
  intro c hc
  unfold collapseWS at hc
  rw [getLast?_collapseAux l false h] at hc
  exact h c hc

/-- Every character of a normalized title is a word character fixed by
`Char.toUpper`, or the plain space character. -/
def wsOK (l : List Char) : Prop :=
  ∀ c ∈ l, (isWordB c = true ∧ c.toUpper = c) ∨ c = ' '

theorem wsOK_normalizeList (l : List Char) : wsOK (normalizeList l) := by
  intro c hc
  unfold normalizeList removeOther at hc
  rcases List.mem_filter.mp hc with ⟨hmem, hkeep⟩
  rcases mem_collapseAux _ _ _ hmem with ⟨hm, hs⟩ | hsp
  · left
    constructor
    · unfold keepB at hkeep
      rcases Bool.or_eq_true_iff.mp hkeep with hw | hsp2
      · exact hw
      · rw [hs] at hsp2; exact absurd hsp2 (by simp)
    · have := mem_stripChars _ _ hm
      rcases List.mem_map.mp this with ⟨a, _, ha⟩
      rw [← ha]
      exact toUpper_idem a
  · right; exact hsp

theorem map_toUpper_of_wsOK (l : List Char) (h : wsOK l) :
    l.map Char.toUpper = l := by
  have : l.map Char.toUpper = l.map id := by
    apply List.map_congr_left
    intro a ha
    rcases h a ha with ⟨_, hfix⟩ | hsp
    · exact hfix
    · subst hsp; decide
  rw [this, List.map_id]

theorem wsOK_keepB (l : List Char) (h : wsOK l) (c : Char) (hc : c ∈ l) :
    keepB c = true := by
  rcases h c hc with ⟨hw, _⟩ | hsp
  · unfold keepB; rw [hw]; rfl
  · subst hsp; decide

theorem wsOK_stripChars (l : List Char) (h : wsOK l) : wsOK (stripChars l) :=
  fun c hc => h c (mem_stripChars l c hc)

theorem wsOK_collapseWS (l : List Char) (h : wsOK l) : wsOK (collapseWS l) := by
  intro c hc
  rcases mem_collapseAux l false c hc with ⟨hm, _⟩ | hsp
  · exact h c hm
  · right; exact hsp

/-- The second application of the normalizer reaches a fixed point: for
`y` in the image of `normalizeList`, `normalizeList (normalizeList y)` is
fixed by `normalizeList`. -/
theorem normalizeList_image_fixed (x : List Char) :
    normalizeList (normalizeList (normalizeList x)) =
      normalizeList (normalizeList x) := by
  set y := normalizeList x with hy
  have hyws : wsOK y := wsOK_normalizeList x
  have hymap : y.map Char.toUpper = y := map_toUpper_of_wsOK y hyws
  set m := stripChars y with hm
  have hmws : wsOK m := wsOK_stripChars y hyws
  have hz : normalizeList y = collapseWS m := by
    unfold normalizeList
    rw [hymap, ← hm]
    unfold removeOther
    rw [List.filter_eq_self.mpr]
    intro c hc
    exact wsOK_keepB _ (wsOK_collapseWS m hmws) c hc
  set z := normalizeList y with hzdef
  have hzws : wsOK z := wsOK_normalizeList y
  have hzmap : z.map Char.toUpper = z := map_toUpper_of_wsOK z hzws
  have hznl : noLead z := by
    rw [hz]
    exact noLead_collapseWS m (noLead_stripChars y)
  have hznt : noTrail z := by
    rw [hz]
    exact noTrail_collapseWS m (noTrail_stripChars y)
  have hstrip : stripChars z = z := stripChars_eq_self z hznl hznt
  have hcoll : collapseWS z = z := by
    rw [hz]
    exact collapseAux_idem m false
  show normalizeList z = z
  unfold normalizeList
  rw [hzmap, hstrip, hcoll]
  unfold removeOther
  rw [List.filter_eq_self.mpr]
  intro c hc
  exact wsOK_keepB z hzws c hc

/-- Claim C2 counterexample: `normalize_title` is not idempotent. On the real
catalog title "UMMATHAT - THE RHYTHM OF KODAVA" (FEB_6_FILMS, cinepolis screen
8), the first pass deletes the hyphen after whitespace was already collapsed,
leaving a double space; a second pass collapses it further. -/
theorem normalize_title_not_idempotent :
    normalize_title (normalize_title ("UMMATHAT - THE RHYTHM OF KODAVA")) ≠
      normalize_title ("UMMATHAT - THE RHYTHM OF KODAVA") := by
  decide

/-- Claim C2 as amended (the code removes punctuation only after collapsing
whitespace, so one application can leave double spaces): the normalizer
stabilizes after two applications — for every input string `s`,
`normalize_title (normalize_title s)` is a fixed point of `normalize_title`. -/
theorem normalize_title_double_idempotent (s : String) :
    normalize_title (normalize_title (normalize_title s)) =
      normalize_title (normalize_title s) := by
  unfold normalize_title
  exact congrArg String.mk (normalizeList_image_fixed s.data)

/-! ## Data model: showings, screenings, days, stores

Embedding of the dict/tuple shapes used by `convert_to_schedule_format` and
`main` (extract-feb-schedule.py) and `main` (merge-schedule.py). -/

/-- One 7-tuple of the literal day tables
`(time, film, director, country, year, language, duration)`. The film and
director slots hold `None` for some program items in the source data, so both
are `Option String`. -/
structure FilmTuple where
  time : String
  film : Option String
  director : Option String
  country : String
  year : Nat
  language : String
  duration : Nat
deriving DecidableEq

/-- One showing dict as built inside `convert_to_schedule_format`. -/
structure Showing where
  time : String
  film : Option String
  director : Option String
  country : String
  year : Nat
  language : String
  duration : Nat
deriving DecidableEq

/-- The dict literal appended to `showings` for each tuple
(extract-feb-schedule.py, lines 348-356 and 369-377): field-by-field copy. -/
def toShowing (t : FilmTuple) : Showing :=
  { time := t.time, film := t.film, director := t.director, country := t.country,
    year := t.year, language := t.language, duration := t.duration }

/-- One screening dict: a (venue, screen) pair with its showing list. -/
structure Screening where
  venue : String
  screen : String
  showings : List Showing
deriving DecidableEq

/-- One day dict of `schedule_data.json`. -/
structure ScheduleDay where
  date : String
  dayNumber : Nat
  label : String
  screenings : List Screening
deriving DecidableEq

/-- The value under a venue key of a day table: the "cinepolis" key maps to a
dict from screen number to tuple list, every other venue key maps directly to
a tuple list. -/
inductive VenueData where
  | screens : List (String × List FilmTuple) → VenueData
  | slots : List FilmTuple → VenueData
deriving DecidableEq

/-- A day table such as `FEB_3_FILMS`: a dict from venue key to venue data,
modelled as an association list in insertion order. -/
abbrev DayFilms := List (String × VenueData)

/-- Python `venue in day_films` / `day_films[venue]` on the day-table dict. -/
def dfLookup (df : DayFilms) (k : String) : Option VenueData :=
  (df.find? (fun p => p.1 == k)).map (fun p => p.2)

/-- The static per-venue time-slot table `TIME_SLOTS`
(extract-feb-schedule.py, lines 47-53). It is defined by the script but never
read by any of its functions. -/
def TIME_SLOTS : List (String × List String) :=
  [("screen", ["10:00", "12:30", "14:50", "17:10", "19:40"]),
   ("forum", ["11:00", "15:00", "18:00"]),
   ("openair", ["19:00"]),
   ("rajkumar", ["10:30", "14:00", "17:30"]),
   ("banashankari", ["10:30", "15:00", "18:00"])]

/-! ## Schedule Assembler

Embedding of `convert_to_schedule_format(day_films, date, day_number, label)`
(extract-feb-schedule.py, lines 338-390). -/

/-- The cinepolis branch (lines 343-361): one Screening per screen dict entry,
appended unconditionally — there is no emptiness guard on this branch. -/
def cinepolisScreenings (day_films : DayFilms) : List Screening :=
  match dfLookup day_films ("cinepolis") with
  | some (VenueData.screens m) =>
      m.map (fun p =>
        { venue := "cinepolis", screen := p.1, showings := p.2.map toShowing })
  | _ => []

/-- The fixed iteration list of the non-cinepolis venue loop (line 364). -/
def otherVenueList : List String := ["rajkumar", "banashankari", "openair", "forum"]

/-- One iteration of the venue loop (lines 364-383): a venue present in the
day table contributes one Screening if its showings list is nonempty; the
"forum" venue is folded into cinepolis under the screen label "Open Forum". -/
def otherScreening (day_films : DayFilms) (v : String) : List Screening :=
  match dfLookup day_films v with
  | some (VenueData.slots films) =>
      let showings := films.map toShowing
      if showings.isEmpty then []
      else
        [{ venue := if v == "forum" then "cinepolis" else v,
           screen := if v == "forum" then "Open Forum" else "1",
           showings := showings }]
  | _ => []

/-- All screenings contributed by the venue loop, in loop order. -/
def otherScreenings (day_films : DayFilms) : List Screening :=
  otherVenueList.flatMap (otherScreening day_films)

/-- Embedding of `convert_to_schedule_format` (lines 338-390). -/
def convert_to_schedule_format (day_films : DayFilms) (date : String)
    (day_number : Nat) (label : String) : ScheduleDay :=
  { date := date, dayNumber := day_number, label := label,
    screenings := cinepolisScreenings day_films ++ otherScreenings day_films }

/-! ## Merge Engine

Embedding of the merge steps of `main` in extract-feb-schedule.py (append
mode, lines 408-411) and of `main` in merge-schedule.py (replace mode,
lines 29-37). The venue directory is opaque pass-through data, modelled by a
type parameter `V`. -/

/-- The store-level metadata block of `schedule_data.json`. -/
structure ScheduleMeta (V : Type) where
  lastUpdated : String
  source : String
  note : String
  venues : V
deriving DecidableEq

/-- The persisted schedule store document. -/
structure ScheduleStore (V : Type) where
  schedule : ScheduleMeta V
  days : List ScheduleDay
deriving DecidableEq

/-- The `lastUpdated` literal written by the append-mode run (line 410). -/
def appendLastUpdated : String := "2026-01-29T12:00:00.000Z"

/-- The `source` literal written by the append-mode run (line 411). -/
def appendSource : String := "film schedule curve (29th Jan) - 12 pages.pdf"

/-- Append-mode merge (extract-feb-schedule.py, lines 408-411):
`schedule_data["days"].extend(new_days)` then assignment of `lastUpdated` and
`source`. No other metadata field is touched. -/
def appendMerge {V : Type} (store : ScheduleStore V) (newDays : List ScheduleDay) :
    ScheduleStore V :=
  { schedule :=
      { store.schedule with
        lastUpdated := appendLastUpdated,
        source := appendSource },
    days := store.days ++ newDays }

/-- The `lastUpdated` literal of the replace-mode run (merge-schedule.py, line 31). -/
def replaceLastUpdated : String := "2026-01-30T12:00:00.000Z"

/-- The `source` literal of the replace-mode run (merge-schedule.py, line 32). -/
def replaceSource : String := "film schedule curve (29th Jan) - 12 pages.pdf (Image extracted)"

/-- The `note` literal of the replace-mode run (merge-schedule.py, line 33). -/
def replaceNote : String := "Schedule extracted directly from PDF images. Verified against official schedule."

/-- Replace-mode merge (merge-schedule.py, lines 29-37): a fresh store whose
day list is exactly the loaded days and whose venue directory is copied from
the prior store. -/
def replaceMerge {V : Type} (existing : ScheduleStore V) (loadedDays : List ScheduleDay) :
    ScheduleStore V :=
  { schedule :=
      { lastUpdated := replaceLastUpdated,
        source := replaceSource,
        note := replaceNote,
        venues := existing.schedule.venues },
    days := loadedDays }

/-! ## Catalog loading

Embedding of `load_films` (extract-feb-schedule.py, lines 16-20): a Python
dict comprehension keyed by `film['title'].upper().strip()`. Python dict
semantics: inserting an existing key overwrites its value in place (keeping
the key's original position); a fresh key is appended at the end. -/

/-- The lookup key of `load_films`: `film['title'].upper().strip()`. -/
def filmKey (f : CatalogFilm) : String :=
  String.mk (stripChars (f.title.data.map Char.toUpper))

/-- Python dict assignment `d[k] = v` on an insertion-ordered association
list: overwrite in place if `k` is present, else append. -/
def dictInsert : List (String × CatalogFilm) → String → CatalogFilm →
    List (String × CatalogFilm)
  | [], k, v => [(k, v)]
  | p :: rest, k, v =>
      if p.1 == k then (k, v) :: rest else p :: dictInsert rest k v

/-- Python dict lookup `d[k]` (as an Option). -/
def dictLookup (d : List (String × CatalogFilm)) (k : String) : Option CatalogFilm :=
  (d.find? (fun p => p.1 == k)).map (fun p => p.2)

/-- Embedding of `load_films` (lines 16-20): fold the dict comprehension over
the catalog's film list in order. -/
def load_films (films : List CatalogFilm) : List (String × CatalogFilm) :=
  films.foldl (fun d f => dictInsert d (filmKey f) f) []

/-! ## Diagnostic summary and persistence

Embedding of the tail of `main` (extract-feb-schedule.py, lines 414-441): the
summary loop calls `find_film_match(showing["film"], films_db)` for every
showing of the new days, then the store is written. A showing whose `film`
value is `None` makes `normalize_title` call `None.upper()`, raising
`AttributeError` and aborting the script before the write. -/

/-- All showings of a day, in screening order. -/
def dayShowings (day : ScheduleDay) : List Showing :=
  day.screenings.flatMap (fun s => s.showings)

/-- All showings of the new days, in day order (the triple loop of
lines 418-426). -/
def allShowings (days : List ScheduleDay) : List Showing :=
  days.flatMap dayShowings

/-- The diagnostic counters of the summary loop. -/
structure MatchSummary where
  total : Nat
  matched : Nat
  unmatched : List String
deriving DecidableEq

/-- The summary loop. `Except.error` models the uncaught `AttributeError`
raised by `normalize_title(None)`. -/
def summarizeAux (db : List (String × CatalogFilm)) :
    MatchSummary → List Showing → Except String MatchSummary
  | acc, [] => Except.ok acc
  | acc, s :: rest =>
    match s.film with
    | none => Except.error "AttributeError: NoneType object has no attribute upper"
    | some t =>
      match find_film_match t db with
      | some _ =>
          summarizeAux db
            { total := acc.total + 1, matched := acc.matched + 1,
              unmatched := acc.unmatched } rest
      | none =>
          summarizeAux db
            { total := acc.total + 1, matched := acc.matched,
              unmatched := acc.unmatched ++ [t] } rest

/-- The diagnostic summary over the new days (lines 414-426). -/
def summarize (db : List (String × CatalogFilm)) (days : List ScheduleDay) :
    Except String MatchSummary :=
  summarizeAux db { total := 0, matched := 0, unmatched := [] } (allShowings days)

/-- The merge-then-summarize-then-write tail of `main` (lines 408-439): the
result is the store that gets persisted, or `none` when the summary raises
before the write is reached. -/
def runAppendPipeline {V : Type} (store : ScheduleStore V)
    (newDays : List ScheduleDay) (db : List (String × CatalogFilm)) :
    Option (ScheduleStore V) :=
  match summarize db newDays with
  | Except.error _ => none
  | Except.ok _ => some (appendMerge store newDays)

/-- The literal day table `FEB_3_FILMS` (extract-feb-schedule.py,
lines 56-127), transcribed field by field. -/
def FEB_3_FILMS : DayFilms :=
  [("cinepolis", VenueData.screens
    [("1",
       [⟨"10:00", some ("MAHAKAVI"), some ("Baragur Ramachandrappa"), "India", 2025, "Kannada", 121⟩,
        ⟨"12:30", some ("SHAPE OF MOMO"), some ("Tribeny Rai"), "India", 2025, "Nepali", 115⟩,
        ⟨"14:50", some ("INVISIBLE TALES"), some ("Mehdi Fard Ghaderi"), "Iran", 2025, "Farsi", 100⟩,
        ⟨"17:10", some ("THE LOVE THAT REMAINS"), some ("Hlynur Palmason"), "Iceland", 2025, "Icelandic", 109⟩,
        ⟨"19:40", some ("MAN OF MARBLE"), some ("Andrzej Wajda"), "Poland", 1977, "Polish", 165⟩]),
     ("2",
       [⟨"10:00", some ("OUT OF LOVE"), some ("Nathan Ambrosioni"), "France", 2025, "French", 111⟩,
        ⟨"12:30", some ("DRAGONFLY"), some ("Paul Andrew Williams"), "United Kingdom", 2025, "English", 98⟩,
        ⟨"14:50", some ("BEFORE THE BODY"), some ("Lucia Bracelis, Carina Piazza"), "Argentina", 2025, "Spanish", 84⟩,
        ⟨"17:10", some ("THE LAST SUMMER"), some ("Shi Refei"), "China", 2025, "Mandarin Chinese", 90⟩,
        ⟨"19:40", some ("NATIONAL IMMIGRE"), some ("Sidney Sokhona"), "France", 1976, "French", 85⟩]),
     ("3",
       [⟨"10:00", some ("BLUE MOON"), some ("Richard Linklater"), "United States", 2025, "English", 100⟩,
        ⟨"12:30", some ("SLEEPLESS CITY"), some ("Guillermo Galoe"), "Spain", 2025, "Spanish", 97⟩,
        ⟨"14:50", some ("HALF MOON"), some ("Frank Scheffer"), "Netherlands", 2025, "English", 92⟩,
        ⟨"17:10", some ("THE GREAT ARCH"), some ("Stephane Demoustier"), "France", 2025, "French", 106⟩,
        ⟨"19:40", some ("ON THE SILVER GLOBE"), some ("Andrzej Zulawski"), "Poland", 1988, "Polish", 166⟩]),
     ("4",
       [⟨"10:00", some ("COMANDANTE FRITZ"), some ("Pavel Giroud"), "Germany", 2025, "German", 107⟩,
        ⟨"12:30", some ("RUDAALI"), some ("Kalpana Lajmi"), "India", 1993, "Hindi", 128⟩,
        ⟨"14:50", some ("DIVINE COMEDY"), some ("Ali Asgari"), "Iran", 2025, "Persian", 96⟩,
        ⟨"17:10", some ("DJ AHMET"), some ("Georgi M. Unkovski"), "Macedonia", 2025, "Turkish", 99⟩,
        ⟨"19:40", some ("INNOCENT SORCERERS"), some ("Andrzej Wajda"), "Poland", 1960, "Polish", 87⟩]),
     ("5",
       [⟨"10:00", some ("ORENDA"), some ("Pirjo Honkasalo"), "Finland", 2025, "Finnish", 119⟩,
        ⟨"12:30", some ("KURAK"), some ("Rke Dzhumaki"), "Kyrgyzstan", 2025, "Kyrgyz", 89⟩,
        ⟨"14:50", some ("MOHAM"), some ("Fazil Razak"), "India", 2025, "Malayalam", 102⟩,
        ⟨"17:10", some ("GAMAN"), some ("Manoj Madhukar Naiksatam"), "India", 2025, "Marathi", 105⟩,
        ⟨"19:40", some ("BHAKTA KANAKADASA"), some ("Y. R. Swamy"), "India", 1960, "Kannada", 127⟩]),
     ("6",
       [⟨"10:00", some ("SONGS OF FORGOTTEN TREES"), some ("Anuparna Roy"), "India", 2025, "Hindi", 80⟩,
        ⟨"12:30", some ("WHAT DOES THAT NATURE SAY TO YOU"), some ("Hong Sang-Soo"), "South Korea", 2025, "Korean", 109⟩,
        ⟨"14:50", some ("CLOISTERED SISTER"), some ("Ivana Mladenovic"), "Romania", 2025, "Romanian", 107⟩,
        ⟨"17:10", some ("A CONVERSATION WITH JAYANT KAIKINI"), none, "India", 2025, "English", 90⟩]),
     ("7",
       [⟨"10:00", some ("BIDAD"), some ("Soheil Beiraghi"), "Iran", 2025, "Iranian", 104⟩,
        ⟨"12:30", some ("THE DREAMED ONES"), some ("Ruth Beckermann"), "Austria", 2016, "German", 89⟩,
        ⟨"14:50", some ("UNDER THE VOLCANO"), some ("Damian Kocur"), "Poland", 2024, "Ukrainian", 105⟩,
        ⟨"17:10", some ("KHIDKI GAAV"), some ("Sanju Surendran"), "India", 2025, "Malayalam", 100⟩]),
     ("8",
       [⟨"10:00", some ("YOUNG MOTHERS"), some ("Jean-Pierre Dardenne, Luc Dardenne"), "France", 2025, "French", 106⟩,
        ⟨"12:30", some ("LATE SHIFT"), some ("Petra Biondina Volpe"), "Switzerland", 2025, "Swiss-German", 92⟩,
        ⟨"14:50", some ("FATHER MOTHER SISTER BROTHER"), some ("Jim Jarmusch"), "USA", 2025, "English", 110⟩,
        ⟨"17:10", some ("OSLO: A TAIL OF PROMISE"), some ("Isha Pungaliya"), "India", 2025, "Hindi", 93⟩,
        ⟨"19:40", some ("JEVANN"), some ("Akshay Nayak"), "India", 2025, "Konkani", 117⟩])]),
   ("rajkumar", VenueData.slots
    [⟨"10:30", some ("TUG OF WAR"), some ("Amil Shivji"), "Tanzania", 2021, "Swahili", 92⟩,
     ⟨"14:00", some ("CHIDAMBARAM"), some ("Govindan Aravindan"), "India", 1985, "Malayalam", 100⟩,
     ⟨"17:30", some ("THE NATURE OF INVISIBLE THINGS"), some ("Rafaela Camelo"), "Brazil", 2025, "Portuguese", 90⟩]),
   ("banashankari", VenueData.slots
    [⟨"10:30", some ("THE LITTLE GIRL WHO SOLD THE SUN"), some ("Djibril Diop Mambety"), "Senegal", 1999, "Wolof", 45⟩,
     ⟨"11:15", some ("LE FRANC"), some ("Djibril Diop Mambety"), "Senegal", 1994, "Wolof", 45⟩,
     ⟨"15:00", some ("MAHAKAVI"), some ("Baragur Ramachandrappa"), "India", 2025, "Kannada", 121⟩,
     ⟨"18:00", some ("GONDHAL"), some ("Santosh Davakhar"), "India", 2025, "Marathi", 120⟩]),
   ("openair", VenueData.slots
    [⟨"19:00", some ("AMMANG HELBEDA"), some ("Anoop Lokkur"), "India", 2025, "Kannada", 90⟩])]

/-! ## Claim C3: positional time-slot assignment -/

/-- Claim C3 counterexample: the assembler does not assign the Nth showing on
a screen the Nth entry of the venue slot table, and an over-full screen is
passed through silently. On the script's own `FEB_3_FILMS` data the
banashankari screen carries four showings (times 10:30, 11:15, 15:00, 18:00)
while `TIME_SLOTS` lists three slots for that venue; the second showing's time
is "11:15", which is the tuple's time and is not even a member of the slot
table, and the fourth showing is emitted with no fourth slot existing — not
rejected or flagged. -/
theorem convert_ignores_time_slots_counterexample :
    ((convert_to_schedule_format FEB_3_FILMS ("2026-02-03") 5 ("Day 5 - Tuesday")).screenings.filter
        (fun s => s.venue == "banashankari")).map (fun s => s.showings.map (fun x => x.time)) =
      [["10:30", "11:15", "15:00", "18:00"]] ∧
    (TIME_SLOTS.find? (fun p => p.1 == "banashankari")).map (fun p => p.2) =
      some (["10:30", "15:00", "18:00"]) ∧
    ¬ ("11:15" ∈ (["10:30", "15:00", "18:00"] : List String)) :=
  ⟨rfl, rfl, by decide⟩

/-- Claim C3 as amended: `convert_to_schedule_format` copies each showing's
time verbatim from its input tuple — the per-venue slot table `TIME_SLOTS` is
never consulted, the Nth showing simply carries the Nth tuple's time, and
showings beyond the slot table's length are emitted silently. For the
single-slot venues this still yields the spec's scenario (one openair showing
at "19:00") because the tuple itself says "19:00". -/
theorem convert_times_from_tuples
    (df : DayFilms) (date : String) (n : Nat) (lbl : String)
    (v : String) (films : List FilmTuple)
    (hv : v ∈ (["rajkumar", "banashankari", "openair"] : List String))
    (hlk : dfLookup df v = some (VenueData.slots films))
    (hne : films ≠ []) :
    ∃ scr : Screening,
      scr ∈ (convert_to_schedule_format df date n lbl).screenings ∧
      scr.venue = v ∧
      scr.showings.map (fun s => s.time) = films.map (fun t => t.time) := by
  have hisE : (films.map toShowing).isEmpty = false := by
    rw [Bool.eq_false_iff]
    intro hE
    rw [List.isEmpty_iff, List.map_eq_nil_iff] at hE
    exact hne hE
  have hvd : v = "rajkumar" ∨ v = "banashankari" ∨ v = "openair" := by
    simpa using hv
  have hvf : (v == "forum") = false := by
    rcases hvd with rfl | rfl | rfl <;> decide
  have hscr : otherScreening df v =
      [{ venue := v, screen := "1", showings := films.map toShowing }] := by
    unfold otherScreening
    rw [hlk]
    simp only [hisE, Bool.false_eq_true, if_false, hvf]
  have hmemV : v ∈ otherVenueList := by
    rcases hvd with rfl | rfl | rfl <;> decide
  refine ⟨{ venue := v, screen := "1", showings := films.map toShowing }, ?_, rfl, ?_⟩
  · unfold convert_to_schedule_format
    apply List.mem_append_right
    unfold otherScreenings
    apply List.mem_flatMap.mpr
    exact ⟨v, hmemV, by rw [hscr]; exact List.mem_singleton.mpr rfl⟩
  · rw [List.map_map]
    rfl

/-- The openair tuple list of the spec's C3 scenario, taken from FEB_3_FILMS. -/
def openairTuples : List FilmTuple :=
  [⟨"19:00", some ("AMMANG HELBEDA"), some ("Anoop Lokkur"), "India", 2025, "Kannada", 90⟩]

/-- A one-venue day table holding only the openair slot list. -/
def openairOnlyDF : DayFilms := [("openair", VenueData.slots openairTuples)]

/-- Witness for the amended C3 at the spec's scenario: venue "openair" with
one extracted showing yields a screening whose single showing time is the
tuple's "19:00". -/
theorem convert_times_from_tuples_witness :
    ("openair" ∈ (["rajkumar", "banashankari", "openair"] : List String)) ∧
    dfLookup openairOnlyDF ("openair") = some (VenueData.slots openairTuples) ∧
    openairTuples ≠ [] ∧
    (∃ scr : Screening,
      scr ∈ (convert_to_schedule_format openairOnlyDF ("2026-02-03") 5 ("Day 5 - Tuesday")).screenings ∧
      scr.venue = "openair" ∧
      scr.showings.map (fun s => s.time) = openairTuples.map (fun t => t.time)) :=
  ⟨by decide, by decide, by decide,
   convert_times_from_tuples openairOnlyDF ("2026-02-03") 5 ("Day 5 - Tuesday")
     ("openair") openairTuples (by decide) (by decide) (by decide)⟩

/-! ## Claim C5: append-mode merge -/

/-- Claim C5 as amended: append-mode merging preserves old and new days in
relative order (M existing + N new = M+N days), and overwrites `lastUpdated`
and `source` with this run's values — but the `note` field and the venue
directory of the metadata block are carried over from the prior store, not
overwritten (extract-feb-schedule.py touches only lines 410-411). -/
theorem appendMerge_spec {V : Type} (store : ScheduleStore V) (newDays : List ScheduleDay) :
    (appendMerge store newDays).days = store.days ++ newDays ∧
    (appendMerge store newDays).days.length = store.days.length + newDays.length ∧
    (appendMerge store newDays).schedule.lastUpdated = appendLastUpdated ∧
    (appendMerge store newDays).schedule.source = appendSource ∧
    (appendMerge store newDays).schedule.note = store.schedule.note ∧
    (appendMerge store newDays).schedule.venues = store.schedule.venues :=
  ⟨rfl, List.length_append _ _, rfl, rfl, rfl, rfl⟩

/-- A prior store whose note field reads "note kept A". -/
def storeNoteA : ScheduleStore String :=
  { schedule :=
      { lastUpdated := "2026-01-01T00:00:00.000Z",
        source := "prior-source",
        note := "note kept A",
        venues := "venue-directory" },
    days := [] }

/-- The same prior store except its note reads "note kept B". -/
def storeNoteB : ScheduleStore String :=
  { schedule :=
      { lastUpdated := "2026-01-01T00:00:00.000Z",
        source := "prior-source",
        note := "note kept B",
        venues := "venue-directory" },
    days := [] }

/-- Claim C5 counterexample: the metadata block is not fully overwritten in
append mode. Two prior stores that differ only in their `note` field still
differ in `note` after the very same append-mode run, so `note` depends on the
prior store rather than on any value supplied for the run. -/
theorem appendMerge_note_not_overwritten_counterexample :
    (appendMerge storeNoteA []).schedule.note = "note kept A" ∧
    (appendMerge storeNoteB []).schedule.note = "note kept B" ∧
    ("note kept A" : String) ≠ "note kept B" :=
  ⟨rfl, rfl, by decide⟩

/-! ## Claim C6: empty showing lists -/

/-- A day table whose single cinepolis screen has an empty tuple list. -/
def emptyCinepolisDF : DayFilms := [("cinepolis", VenueData.screens [("1", [])])]

/-- Claim C6 counterexample: a cinepolis screen with an empty showing list is
NOT omitted — the cinepolis branch of `convert_to_schedule_format` has no
emptiness guard (extract-feb-schedule.py lines 344-361, unlike the guarded
venue loop at line 378), so an empty Screening is emitted. -/
theorem empty_cinepolis_screening_emitted_counterexample :
    (convert_to_schedule_format emptyCinepolisDF ("2026-02-07") 9 ("Day 9")).screenings =
      [{ venue := "cinepolis", screen := "1", showings := [] }] :=
  rfl

/-- Claim C6 as amended: screens with an empty showing list are omitted for
the four venue keys handled by the venue loop (rajkumar, banashankari,
openair, and forum) — every Screening that loop contributes has a nonempty
showing list — whereas a cinepolis screen with an empty list is emitted as an
empty Screening. -/
theorem otherScreenings_nonempty (df : DayFilms) (scr : Screening)
    (h : scr ∈ otherScreenings df) : scr.showings ≠ [] := by
  rcases List.mem_flatMap.mp h with ⟨v, _, hscr⟩
  unfold otherScreening at hscr
  cases hlk : dfLookup df v with
  | none => rw [hlk] at hscr; simp at hscr
  | some vd =>
    cases vd with
    | screens
        m => rw [hlk] at hscr; simp at hscr
    | slots films =>
      rw [hlk] at hscr
      simp only at hscr
      by_cases hE : (films.map toShowing).isEmpty = true
      · rw [if_pos hE] at hscr
        simp at hscr
      · rw [if_neg hE] at hscr
        rcases List.mem_singleton.mp hscr with rfl
        intro hnil
        apply hE
        rw [List.isEmpty_iff]
        exact hnil

/-- A day table with one nonempty rajkumar list and an empty openair list. -/
def c6WitnessDF : DayFilms :=
  [("rajkumar", VenueData.slots
    [⟨"10:30", some ("TUG OF WAR"), some ("Amil Shivji"), "Tanzania", 2021, "Swahili", 92⟩]),
   ("openair", VenueData.slots [])]

/-- Witness for the amended C6: the rajkumar screening produced by the venue
loop is present and nonempty (and the empty openair list contributed no
screening at all). -/
theorem otherScreenings_nonempty_witness :
    (({ venue := "rajkumar", screen := "1",
        showings := [⟨"10:30", some ("TUG OF WAR"), some ("Amil Shivji"), "Tanzania", 2021, "Swahili", 92⟩] } : Screening)
      ∈ otherScreenings c6WitnessDF) ∧
    ({ venue := "rajkumar", screen := "1",
       showings := [⟨"10:30", some ("TUG OF WAR"), some ("Amil Shivji"), "Tanzania", 2021, "Swahili", 92⟩] } : Screening).showings ≠ [] :=
  ⟨by decide,
   otherScreenings_nonempty c6WitnessDF _ (by decide)⟩

/-! ## Claim C8: duplicate dates in append mode -/

/-- Claim C8 (confirmed): append-mode merging performs no de-duplication by
date and signals no error — merging a day whose date already occurs once in
the store yields a store holding two day entries with that date. The merge is
a total function (`extend` never raises). -/
theorem appendMerge_duplicate_date {V : Type} (store : ScheduleStore V)
    (day : ScheduleDay) (d : String)
    (h1 : store.days.countP (fun x => x.date == d) = 1)
    (h2 : day.date = d) :
    ((appendMerge store [day]).days.countP (fun x => x.date == d)) = 2 := by
  show ((store.days ++ [day]).countP (fun x => x.date == d)) = 2
  rw [List.countP_append, h1, List.countP_cons]
  simp [h2]

/-- A store already holding a day dated 2026-02-03. -/
def dupDateStore : ScheduleStore String :=
  { schedule :=
      { lastUpdated := "2026-01-28T00:00:00.000Z",
        source := "earlier-run",
        note := "prior note",
        venues := "venue-directory" },
    days := [{ date := "2026-02-03", dayNumber := 5, label := "Day 5 - Tuesday", screenings := [] }] }

/-- A newly assembled day with the same date 2026-02-03. -/
def dupDateDay : ScheduleDay :=
  { date := "2026-02-03", dayNumber := 9, label := "Day 5 duplicate", screenings := [] }

/-- Witness for C8 at the spec's scenario: merging a day dated "2026-02-03"
into a store that already contains that date yields exactly two entries with
that date. -/
theorem appendMerge_duplicate_date_witness :
    dupDateStore.days.countP (fun x => x.date == "2026-02-03") = 1 ∧
    dupDateDay.date = "2026-02-03" ∧
    ((appendMerge dupDateStore [dupDateDay]).days.countP (fun x => x.date == "2026-02-03")) = 2 :=
  ⟨by decide, rfl,
   appendMerge_duplicate_date dupDateStore dupDateDay ("2026-02-03") (by decide) rfl⟩

/-! ## Claim C9: replace-mode merge -/

/-- Claim C9 (confirmed): in replace mode the resulting store's day list is
exactly the loaded days in load order (the prior day list is discarded), the
venue directory is carried over unchanged from the prior store, and the other
metadata fields are set to this run's literals (merge-schedule.py,
lines 29-37). -/
theorem replaceMerge_spec {V : Type} (existing : ScheduleStore V)
    (loadedDays : List ScheduleDay) :
    (replaceMerge existing loadedDays).days = loadedDays ∧
    (replaceMerge existing loadedDays).schedule.venues = existing.schedule.venues ∧
    (replaceMerge existing loadedDays).schedule.lastUpdated = replaceLastUpdated ∧
    (replaceMerge existing loadedDays).schedule.source = replaceSource ∧
    (replaceMerge existing loadedDays).schedule.note = replaceNote :=
  ⟨rfl, rfl, rfl, rfl, rfl⟩

/-! ## Claim C10: unknown venue keys are silently ignored -/

/-- The five venue keys read by `convert_to_schedule_format`. -/
def venueKeys : List String :=
  ["cinepolis", "rajkumar", "banashankari", "openair", "forum"]

theorem dfLookup_append_single (df : DayFilms) (v : String) (vd : VenueData)
    (k : String) (h : k ≠ v) :
    dfLookup (df ++ [(v, vd)]) k = dfLookup df k := by
  unfold dfLookup
  rw [List.find?_append]
  cases hf : df.find? (fun p => p.1 == k) with
  | some p => rfl
  | none =>
    have hvk : ((v, vd).1 == k) = false := by
      simp only [beq_eq_false_iff_ne]
      exact fun he => h he.symm
    rw [List.find?_cons_of_neg _ (by simp [hvk]), List.find?_nil]
    rfl

/-- Claim C10 (confirmed): a venue key other than the five recognized ones is
silently ignored by the assembler — adding such an entry to a day table leaves
the assembled ScheduleDay exactly unchanged: no Screening is produced for it,
no failure occurs, and (the function being pure) no diagnostic exists. -/
theorem convert_ignores_unknown_venues (df : DayFilms) (v : String)
    (vd : VenueData) (date : String) (n : Nat) (lbl : String)
    (hv : ¬ v ∈ venueKeys) :
    convert_to_schedule_format (df ++ [(v, vd)]) date n lbl =
      convert_to_schedule_format df date n lbl := by
  have hs : ∀ k, k ∈ venueKeys → k ≠ v := fun k hk he => hv (he ▸ hk)
  have e1 : cinepolisScreenings (df ++ [(v, vd)]) = cinepolisScreenings df := by
    unfold cinepolisScreenings
    rw [dfLookup_append_single df v vd ("cinepolis") (hs _ (by decide))]
  have e2 : ∀ k, k ∈ venueKeys →
      otherScreening (df ++ [(v, vd)]) k = otherScreening df k := by
    intro k hk
    unfold otherScreening
    rw [dfLookup_append_single df v vd k (hs k hk)]
  have e3 : otherScreenings (df ++ [(v, vd)]) = otherScreenings df := by
    unfold otherScreenings otherVenueList
    simp only [List.flatMap_cons, List.flatMap_nil]
    rw [e2 ("rajkumar") (by decide), e2 ("banashankari") (by decide),
      e2 ("openair") (by decide), e2 ("forum") (by decide)]
  unfold convert_to_schedule_format
  rw [e1, e3]

/-- A day table holding only the openair venue, for the C10 witness. -/
def c10BaseDF : DayFilms := [("openair", VenueData.slots openairTuples)]

/-- An entry under the unrecognized venue key "suchitra". -/
def suchitraEntry : String × VenueData :=
  ("suchitra", VenueData.slots
    [⟨"12:00", some ("SOME FILM"), some ("Someone"), "India", 2025, "Kannada", 100⟩])

/-- Witness for C10: appending a "suchitra" entry to a day table leaves the
assembled day unchanged. -/
theorem convert_ignores_unknown_venues_witness :
    (¬ ("suchitra" ∈ venueKeys)) ∧
    convert_to_schedule_format (c10BaseDF ++ [suchitraEntry]) ("2026-02-03") 5 ("Day 5 - Tuesday") =
      convert_to_schedule_format c10BaseDF ("2026-02-03") 5 ("Day 5 - Tuesday") :=
  ⟨by decide,
   convert_ignores_unknown_venues c10BaseDF ("suchitra") suchitraEntry.2
     ("2026-02-03") 5 ("Day 5 - Tuesday") (by decide)⟩

/-! ## Claim C7: catalog key collisions -/

theorem dictLookup_cons (p : String × CatalogFilm) (rest : List (String × CatalogFilm))
    (q : String) :
    dictLookup (p :: rest) q = if p.1 == q then some p.2 else dictLookup rest q := by
  unfold dictLookup
  rw [List.find?_cons]
  cases h : (p.1 == q) with
  | false => simp
  | true => simp

theorem dictLookup_insert (d : List (String × CatalogFilm)) (k : String)
    (v : CatalogFilm) (q : String) :
    dictLookup (dictInsert d k v) q = if q = k then some v else dictLookup d q := by
  induction d with
  | nil =>
    show dictLookup [(k, v)] q = if q = k then some v else dictLookup [] q
    rw [dictLookup_cons]
    by_cases hq : q = k
    · simp [hq]
    · simp [hq, Ne.symm hq]
  | cons p rest ih =>
    show dictLookup (if p.1 == k then (k, v) :: rest else p :: dictInsert rest k v) q =
      if q = k then some v else dictLookup (p :: rest) q
    by_cases hpk : p.1 = k
    · rw [if_pos (by simp [hpk])]
      rw [dictLookup_cons, dictLookup_cons]
      by_cases hq : q = k
      · simp [hq]
      · simp [hq, Ne.symm hq, hpk]
    · rw [if_neg (by simp [hpk])]
      rw [dictLookup_cons, ih, dictLookup_cons]
      by_cases hpq : p.1 = q
      · have hqk : ¬ q = k := fun he => hpk (by rw [hpq, he])
        simp [hpq, hqk]
      · by_cases hq : q = k
        · simp [hq, hpq, hpk]
        · simp [hq, hpq, hpk]

theorem load_films_foldl_lookup (films : List CatalogFilm)
    (d : List (String × CatalogFilm)) (k : String) :
    dictLookup (films.foldl (fun acc f => dictInsert acc (filmKey f) f) d) k =
      (films.reverse.find? (fun f => filmKey f == k)).or (dictLookup d k) := by
  induction films generalizing d with
  | nil => simp
  | cons f fs ih =>
    rw [List.foldl_cons, ih (dictInsert d (filmKey f) f)]
    rw [List.reverse_cons, List.find?_append, Option.or_assoc]
    rw [dictLookup_insert]
    have hsing : ([f].find? (fun g => filmKey g == k)).or (dictLookup d k) =
        if k = filmKey f then some f else dictLookup d k := by
      by_cases hk : filmKey f = k
      · rw [List.find?_cons_of_pos _ (by simp [hk]), if_pos hk.symm]
        rfl
      · rw [List.find?_cons_of_neg _ (by simp [hk]), List.find?_nil,
          if_neg (fun he => hk he.symm)]
        rfl
    rw [hsing]

/-- Claim C7 as amended: when several catalog films collide on the lookup key
(`film['title'].upper().strip()`), the LAST-inserted film wins every lookup of
that key — Python dict comprehensions overwrite on duplicate keys — stated as:
looking a key up in the loaded catalog is exactly a first-match scan of the
reversed film list. -/
theorem load_films_last_wins (films : List CatalogFilm) (k : String) :
    dictLookup (load_films films) k =
      films.reverse.find? (fun f => filmKey f == k) := by
  unfold load_films
  rw [load_films_foldl_lookup]
  rw [show dictLookup [] k = none from rfl, Option.or_none]

/-- A first-inserted catalog film. -/
def filmFirst : CatalogFilm := { title := "MAN OF MARBLE", director := "Andrzej Wajda" }

/-- A later film whose title collides with `filmFirst` under the lookup
normalization (case-insensitive key). -/
def filmSecond : CatalogFilm := { title := "Man of Marble", director := "Imposter" }

/-- Claim C7 counterexample: on a key collision the FIRST insertion does not
win — looking up the shared key after loading returns the second-inserted
film. -/
theorem load_films_first_does_not_win_counterexample :
    filmKey filmFirst = filmKey filmSecond ∧
    filmFirst ≠ filmSecond ∧
    dictLookup (load_films [filmFirst, filmSecond]) (filmKey filmFirst) = some filmSecond :=
  ⟨by decide, by decide, by decide⟩

/-! ## Claim C4: the diagnostic summary versus persistence -/

theorem summarizeAux_ok (db : List (String × CatalogFilm)) (l : List Showing) :
    ∀ acc, (∀ s ∈ l, s.film.isSome) → ∃ r, summarizeAux db acc l = Except.ok r := by
  induction l with
  | nil => intro acc _; exact ⟨acc, rfl⟩
  | cons s rest ih =>
    intro acc h
    have hs := h s (List.mem_cons_self s rest)
    rcases Option.isSome_iff_exists.mp hs with ⟨t, ht⟩
    have hrest : ∀ x ∈ rest, x.film.isSome :=
      fun x hx => h x (List.mem_cons_of_mem s hx)
    show ∃ r, summarizeAux db acc (s :: rest) = Except.ok r
    unfold summarizeAux
    split
    next heq =>
      rw [ht] at heq
      cases heq
    next t2 heq =>
      split
      next f heq2 => exact ih _ hrest
      next heq2 => exact ih _ hrest

/-- Claim C4 as amended: for day content whose showing titles are all present
(the actual repository data — panels and masterclasses carry a `None`
DIRECTOR, never a `None` title), computing the diagnostic summary never
raises, and the merged store is persisted. A `None` film title, by contrast,
would crash `normalize_title` inside the summary loop and abort the run
before the write (see the counterexample). -/
theorem summary_never_blocks_persistence {V : Type} (store : ScheduleStore V)
    (newDays : List ScheduleDay) (db : List (String × CatalogFilm))
    (h : ∀ s ∈ allShowings newDays, s.film.isSome) :
    runAppendPipeline store newDays db = some (appendMerge store newDays) := by
  unfold runAppendPipeline summarize
  rcases summarizeAux_ok db (allShowings newDays) _ h with ⟨r, hr⟩
  rw [hr]

/-- A day holding one showing whose film title is absent. -/
def noneTitleDay : ScheduleDay :=
  { date := "2026-02-04", dayNumber := 6, label := "Day 6 - Wednesday",
    screenings :=
      [{ venue := "cinepolis", screen := "5",
         showings := [⟨"10:00", none, none, "India", 2025, "English", 90⟩] }] }

/-- A prior store for the C4 runs. -/
def priorStoreC4 : ScheduleStore String :=
  { schedule :=
      { lastUpdated := "2026-01-28T00:00:00.000Z",
        source := "earlier-run",
        note := "prior note",
        venues := "venue-directory" },
    days := [] }

/-- Claim C4 counterexample: a day whose showing has a `None` title makes the
diagnostic summary raise (`None.upper()` inside `normalize_title` via
`find_film_match`), and the run aborts before the store write: nothing is
persisted, so the summary DID prevent persistence for this assembled day
content. -/
theorem none_title_blocks_persistence_counterexample :
    runAppendPipeline priorStoreC4 [noneTitleDay] [] = none :=
  rfl

/-- A day holding the real Feb 3 panel showing: title present, director
absent. -/
def panelDay : ScheduleDay :=
  { date := "2026-02-03", dayNumber := 5, label := "Day 5 - Tuesday",
    screenings :=
      [{ venue := "cinepolis", screen := "6",
         showings :=
           [⟨"17:10", some ("A CONVERSATION WITH JAYANT KAIKINI"), none,
             "India", 2025, "English", 90⟩] }] }

/-- Witness for the amended C4: for the real panel showing (absent DIRECTOR,
present title) the summary succeeds and the merged store is persisted. -/
theorem summary_never_blocks_persistence_witness :
    (∀ s ∈ allShowings [panelDay], s.film.isSome) ∧
    runAppendPipeline priorStoreC4 [panelDay] [] = some (appendMerge priorStoreC4 [panelDay]) :=
  ⟨by decide, summary_never_blocks_persistence priorStoreC4 [panelDay] [] (by decide)⟩

end Biffes
